import Mathlib

/-!
Verification development for the observable HTTP request core
(`src/rx-request.js`): a shallow embedding of its data model and
operations, followed by theorems about them.

Conventions of the embedding:
* JavaScript `null`/`undefined` are modelled with `Option` (or an
  explicit `null` constructor where a payload can be null).
* Machine numbers that the code treats as integers (HTTP status codes,
  envelope status) are modelled as `Int`; `NaN` arising from JS numeric
  coercion of a non-numeric string is modelled as `Option.none`.
* DOM documents are modelled by the `Node` tree; `querySelector` with a
  bare tag-name selector is depth-first search over the descendants.
-/

namespace RxRequest

/-- JavaScript values as far as the request core manipulates them:
JSON values and nested key→value structures (`objToXML` input).
Object field order models JS object enumeration order.
Fractional / exponent JSON numbers never occur in this repository's
payloads and are outside the modelled scope (`num` is an integer). -/
inductive JValue where
  | jnull : JValue
  | bool (b : Bool) : JValue
  | num (n : Int) : JValue
  | str (s : String) : JValue
  | arr (xs : List JValue) : JValue
  | obj (fields : List (String × JValue)) : JValue

/-- A DOM node: an element with a tag and children, or a text node. -/
inductive Node where
  | elem (tag : String) (children : List Node) : Node
  | text (s : String) : Node

mutual
/-- Depth-first tag search over a node and its subtree (the node itself
is a candidate). -/
def qsNode : Node → String → Option Node
  | .text _, _ => none
  | .elem tag cs, name =>
    if tag = name then some (.elem tag cs) else qsList cs name

/-- Depth-first tag search over a node list, in document order. -/
def qsList : List Node → String → Option Node
  | [], _ => none
  | n :: rest, name =>
    match qsNode n name with
    | some hit => some hit
    | none => qsList rest name
end

/-- `root.querySelector(tag)` for a bare tag-name selector: the first
descendant element (depth-first, document order) whose tag matches;
`none` models the JS `null` result. The root itself is not a candidate,
matching DOM semantics. -/
def querySelector (root : Node) (name : String) : Option Node :=
  match root with
  | .elem _ cs => qsList cs name
  | .text _ => none

mutual
/-- DOM `textContent`: concatenation of all descendant text. -/
def textContent : Node → String
  | .text s => s
  | .elem _ cs => textContentList cs

/-- `textContent` concatenated over a node list. -/
def textContentList : List Node → String
  | [] => ""
  | n :: rest => textContent n ++ textContentList rest
end

/-- Digit list to the natural number it denotes in base 10. -/
def digitsToNat (ds : List Char) : Nat :=
  ds.foldl (fun a c => a * 10 + (c.toNat - '0'.toNat)) 0

/-- Decimal digit run: `none` when empty or containing a non-digit.
Leading zeros are accepted, as JS `Number` coercion accepts them. -/
def decDigits (ds : List Char) : Option Nat :=
  if ds ≠ [] ∧ ds.all Char.isDigit then some (digitsToNat ds) else none

/-- Whitespace test for trimming (space, tab, newline, carriage
return — the whitespace that occurs in this repository's payloads). -/
def isWsChar (c : Char) : Bool :=
  c = ' ' ∨ c = '\t' ∨ c = '\n' ∨ c = '\r'

/-- Leading and trailing whitespace removed from a character list. -/
def trimChars (l : List Char) : List Char :=
  ((l.dropWhile isWsChar).reverse.dropWhile isWsChar).reverse

/-- JS unary `+` on a string, restricted to the integer-formatted
strings this repository's envelopes carry: trims whitespace, empty
string is `0`, optional sign followed by digits; `none` models `NaN`
(which is also what JS produces on the fractional/hex syntaxes that are
outside the modelled scope). -/
def jsToNumber (s : String) : Option Int :=
  match trimChars s.data with
  | [] => some 0
  | '-' :: ds => (decDigits ds).map (fun n => -(n : Int))
  | '+' :: ds => (decDigits ds).map (fun n => (n : Int))
  | ds => (decDigits ds).map (fun n => (n : Int))

/-- The `RestCallMethodError` failure value (remote call reported a
negative status): `name`, originating `url`, numeric `code`, and the
formatted human message. -/
structure RestCallMethodError where
  name : String
  url : String
  code : Int
  message : String
deriving DecidableEq, Repr

/-- JS `method ? " (" + method + ")" : ""`: the label suffix, empty for
a missing or empty (falsy) label. -/
def methodSuffix : Option String → String
  | none => ""
  | some m => if m = "" then "" else " (" ++ m ++ ")"

/-- JS `message ? "\n" + message : ""`. -/
def messageSuffix : Option String → String
  | none => ""
  | some m => if m = "" then "" else "\n" ++ m

/-- The `RestCallMethodError` constructor: formats
`restmethodcall: webservice error status <code> (<url>)` plus the
optional method label and server message suffixes. -/
def mkRestCallMethodError (url : String) (code : Int) (method : Option String)
    (msg : Option String) : RestCallMethodError :=
  { name := "RestCallMethodError"
    url := url
    code := code
    message := "restmethodcall: webservice error status " ++ toString code
      ++ " (" ++ url ++ ")" ++ methodSuffix method ++ messageSuffix msg }

/-- Possible outcomes of `RestCallResult`: a raw null-dereference
(`TypeError` in JS, where `querySelector` returned `null` and a property
was read off it), a thrown `RestCallMethodError`, or the returned
`{output, status}` record.  `status = none` models the `NaN` a
non-numeric `Status` text coerces to. -/
inductive RestCallOutcome where
  | nullDeref : RestCallOutcome
  | raised (e : RestCallMethodError) : RestCallOutcome
  | ok (output : Option Node) (status : Option Int) : RestCallOutcome

/-- `RestCallResult(response, url, scriptInfo)`: locate the
`RestCallResult` element, coerce its `Status` child's text to a number,
throw `RestCallMethodError` when negative, otherwise return the
`Output` element and the status.  Dereferencing a missing element or
missing `Status` child is the raw `nullDeref` outcome.  `NaN < 0` is
false in JS, so a `NaN` status takes the non-throwing branch. -/
def RestCallResult (response : Node) (url : String) (scriptInfo : Option String) :
    RestCallOutcome :=
  match querySelector response "RestCallResult" with
  | none => .nullDeref
  | some rcr =>
    match querySelector rcr "Status" with
    | none => .nullDeref
    | some stNode =>
      match jsToNumber (textContent stNode) with
      | none => .ok (querySelector rcr "Output") none
      | some k =>
        if k < 0 then .raised (mkRestCallMethodError url k scriptInfo none)
        else .ok (querySelector rcr "Output") (some k)

/-- `getNodeTextContent(root, name)`: the named child's text content, or
absent when the child does not exist. -/
def getNodeTextContent (root : Node) (name : String) : Option String :=
  (querySelector root name).map textContent

/-- The opening-brace character, `\x7b`. -/
def lbrace : Char := Char.ofNat 123

/-- The closing-brace character, `\x7d`. -/
def rbrace : Char := Char.ofNat 125

/-- JSON whitespace skipping. -/
def skipWs : List Char → List Char
  | [] => []
  | c :: cs => if c = ' ' ∨ c = '\t' ∨ c = '\n' ∨ c = '\r' then skipWs cs else c :: cs

/-- JSON string escape after a backslash; `none` rejects the escape.
`\uXXXX` escapes never occur in this repository's payloads and are
outside the modelled scope (they would make `JSON.parse` succeed where
this model fails; no claim depends on them). -/
def unescape (c : Char) : Option Char :=
  if c = '"' then some '"'
  else if c = '\\' then some '\\'
  else if c = '/' then some '/'
  else if c = 'n' then some '\n'
  else if c = 't' then some '\t'
  else if c = 'r' then some '\r'
  else none

/-- Body of a JSON string literal (after the opening quote): the decoded
characters and the rest of the input after the closing quote. -/
def parseStrChars : List Char → Option (List Char × List Char)
  | [] => none
  | c :: cs =>
    if c = '"' then some ([], cs)
    else if c = '\\' then
      match cs with
      | [] => none
      | e :: cs2 =>
        match unescape e with
        | none => none
        | some d => (parseStrChars cs2).map (fun p => (d :: p.1, p.2))
    else if c.toNat < 32 then none
    else (parseStrChars cs).map (fun p => (c :: p.1, p.2))

/-- Leading decimal-digit run of a character list. -/
def digitsSpan : List Char → List Char × List Char
  | [] => ([], [])
  | c :: cs =>
    if c.isDigit then
      let p := digitsSpan cs
      (c :: p.1, p.2)
    else ([], c :: cs)

/-- JSON integer literal (strict grammar: no leading zeros); the
fractional/exponent continuation is outside the modelled scope (such a
payload never occurs in this repository). -/
def parseNatPart (cs : List Char) : Option (Nat × List Char) :=
  let p := digitsSpan cs
  if p.1 = [] then none
  else if 1 < p.1.length ∧ p.1.head? = some '0' then none
  else some (digitsToNat p.1, p.2)

/-- JSON number (integer fragment), with optional leading minus. -/
def parseNumber : List Char → Option (JValue × List Char)
  | '-' :: cs => (parseNatPart cs).map (fun p => (.num (-(p.1 : Int)), p.2))
  | cs => (parseNatPart cs).map (fun p => (.num (p.1 : Int), p.2))

/-- Literal keyword match: `null`, `true`, `false`. -/
def parseKeyword (cs : List Char) : Option (JValue × List Char) :=
  if cs.take 4 = ['n', 'u', 'l', 'l'] then some (.jnull, cs.drop 4)
  else if cs.take 4 = ['t', 'r', 'u', 'e'] then some (.bool true, cs.drop 4)
  else if cs.take 5 = ['f', 'a', 'l', 's', 'e'] then some (.bool false, cs.drop 5)
  else none

/-- Parser mode: a whole value, the remaining items of an array after
its first character, or the remaining members of an object. -/
inductive PMode where
  | val : PMode
  | arrRest : PMode
  | objRest : PMode

/-- Parser intermediate result, tagged by mode. -/
inductive PRes where
  | v (x : JValue) : PRes
  | vs (xs : List JValue) : PRes
  | kvs (xs : List (String × JValue)) : PRes

/-- Recursive-descent JSON parser, mirroring `JSON.parse` on the value
grammar this repository can receive.  A single function recursing
structurally on fuel (which bounds the number of grammar productions):
mode `val` parses one value, `arrRest` the comma-separated items before
`]`, `objRest` the comma-separated `"key": value` members before the
closing brace. -/
def parseCore : Nat → PMode → List Char → Option (PRes × List Char)
  | 0, _, _ => none
  | Nat.succ fuel, .val, cs0 =>
    (match skipWs cs0 with
     | [] => none
     | c :: cs =>
       if c = '"' then (parseStrChars cs).map (fun p => (.v (.str (String.mk p.1)), p.2))
       else if c = lbrace then
         match skipWs cs with
         | [] => none
         | d :: rest =>
           if d = rbrace then some (.v (.obj []), rest)
           else
             match parseCore fuel .objRest (d :: rest) with
             | some (.kvs xs, r) => some (.v (.obj xs), r)
             | _ => none
       else if c = '[' then
         match skipWs cs with
         | ']' :: rest => some (.v (.arr []), rest)
         | cs2 =>
           match parseCore fuel .arrRest cs2 with
           | some (.vs xs, r) => some (.v (.arr xs), r)
           | _ => none
       else if c = '-' ∨ c.isDigit then (parseNumber (c :: cs)).map (fun p => (.v p.1, p.2))
       else (parseKeyword (c :: cs)).map (fun p => (.v p.1, p.2)))
  | Nat.succ fuel, .arrRest, cs0 =>
    (match parseCore fuel .val cs0 with
     | some (.v v, rest) =>
       (match skipWs rest with
        | ',' :: rest2 =>
          (match parseCore fuel .arrRest rest2 with
           | some (.vs xs, r) => some (.vs (v :: xs), r)
           | _ => none)
        | ']' :: rest2 => some (.vs [v], rest2)
        | _ => none)
     | _ => none)
  | Nat.succ fuel, .objRest, cs0 =>
    (match skipWs cs0 with
     | '"' :: cs =>
       (match parseStrChars cs with
        | none => none
        | some (key, rest) =>
          (match skipWs rest with
           | ':' :: rest2 =>
             (match parseCore fuel .val rest2 with
              | some (.v v, rest3) =>
                (match skipWs rest3 with
                 | ',' :: rest4 =>
                   (match parseCore fuel .objRest rest4 with
                    | some (.kvs xs, r) => some (.kvs ((String.mk key, v) :: xs), r)
                    | _ => none)
                 | d :: rest4 =>
                   if d = rbrace then some (.kvs [(String.mk key, v)], rest4) else none
                 | [] => none)
              | _ => none)
           | _ => none))
     | _ => none)

/-- `JSON.parse` on a whole string: one value, then only whitespace.
The fuel bound is generous: each grammar production consumes input. -/
def jsonParse (s : String) : Option JValue :=
  match parseCore (2 * s.length + 2) .val s.data with
  | some (.v v, rest) => if skipWs rest = [] then some v else none
  | _ => none

/-- A raw transport payload as stored in `xhr.response` / produced by
decoding: JS `null` (also covering the `undefined` that the `== null`
loose check folds in), a string, a parsed JSON value, a parsed document,
or an opaque binary payload (`blob` / `arraybuffer` formats). -/
inductive Payload where
  | null : Payload
  | str (s : String) : Payload
  | json (v : JValue) : Payload
  | doc (d : Node) : Payload
  | raw (id : Nat) : Payload

/-- `toJSONForIE(blob)`: `JSON.parse` with the failure caught and
downgraded to `null`. `JSON.parse("null")` itself returns JS `null`,
which the same `null` payload models. -/
def toJSONForIE (blob : String) : Payload :=
  match jsonParse blob with
  | none => .null
  | some .jnull => .null
  | some v => .json v

/-- One character of the `[&<>]` entity replacement. -/
def escapeChar (c : Char) : String :=
  if c = '&' then "&amp;"
  else if c = '<' then "&lt;"
  else if c = '>' then "&gt;"
  else String.mk [c]

/-- JS truthiness on the leaf values `escapeXml` can receive: `""`, `0`,
`false` and `null` are falsy, so `xml || ""` folds them to `""`. -/
def jsFalsy : JValue → Bool
  | .str "" => true
  | .num 0 => true
  | .bool false => true
  | .jnull => true
  | _ => false

/-- JS `toString` on the leaf values reaching `escapeXml`. -/
def jToString : JValue → String
  | .str s => s
  | .num n => toString n
  | .bool b => if b then "true" else "false"
  | _ => ""

/-- `escapeXml(xml)` on a string: replace every `&`, `<`, `>` with its
entity, leaving every other character alone. -/
def escapeXml (s : String) : String :=
  String.mk (s.data.flatMap (fun c => (escapeChar c).data))

/-- `escapeXml` on a leaf value: `(xml || "").toString()` then the
entity replacement. -/
def escapeXmlVal (v : JValue) : String :=
  if jsFalsy v then "" else escapeXml (jToString v)

/-- JS `typeof attr == "object"`: true for objects, arrays and `null`. -/
def isObjType : JValue → Bool
  | .obj _ => true
  | .arr _ => true
  | .jnull => true
  | _ => false

mutual
/-- `objToXML(obj)`: one `<key>…</key>` element per enumerated key, in
order, recursing into `typeof == "object"` values and escaping leaf
values.  `for…in` over `null` iterates nothing; over an array it yields
the indices `"0"`, `"1"`, ….  The function is never invoked on a string
or number by this repository (the recursion guard excludes them), so
those cases render nothing. -/
def objToXML : JValue → String
  | .obj fields => xmlFields fields
  | .arr xs => xmlArr 0 xs
  | _ => ""

/-- The element run for an object's fields. -/
def xmlFields : List (String × JValue) → String
  | [] => ""
  | (name, attr) :: rest =>
    let inner := if isObjType attr then objToXML attr else escapeXmlVal attr
    "<" ++ name ++ ">" ++ inner ++ "</" ++ name ++ ">" ++ xmlFields rest

/-- The element run for an array's indexed entries. -/
def xmlArr : Nat → List JValue → String
  | _, [] => ""
  | i, v :: rest =>
    let inner := if isObjType v then objToXML v else escapeXmlVal v
    "<" ++ toString i ++ ">" ++ inner ++ "</" ++ toString i ++ ">" ++ xmlArr (i + 1) rest
end

/-- `METHOD_CALL_XML.replace("{payload}", inner)`: the fixed
`RestCallMethod` envelope around the serialized payload.  The template
contains the placeholder exactly once and `String.prototype.replace`
with a string pattern substitutes the first occurrence, so the
template instantiation is this concatenation. -/
def methodCallXML (inner : String) : String :=
  "<RestCallMethod xmlns:i=\"http://www.w3.org/2001/XMLSchema-instance\">"
    ++ inner ++ "</RestCallMethod>"

/-- The fields of the options object handed to `request` /
`restCallMethod` (the RequestSpec).  `data` is a `JValue` so that it can
hold both the caller's structured payload and the XML string the
adapter overwrites it with. -/
structure SpecObj where
  url : String
  method : Option String
  data : JValue
  headers : Option (List (String × String))
  format : Option String
  ScriptInfo : Option String

/-- The field overrides `restCallMethod` performs on its options object
(source order: `method`, `headers`, `data`, `format`; `data` is computed
from the payload still stored in the object, which the write then
replaces). -/
def restCallShape (o : SpecObj) : SpecObj :=
  { o with
    method := some "POST"
    headers := some [("Content-Type", "application/xml")]
    data := .str (methodCallXML (objToXML o.data))
    format := some "document" }

/-- Object references, for observing aliasing and in-place mutation. -/
abbrev Ref := Nat

/-- A heap of spec objects, indexed by reference. -/
abbrev Store := Ref → SpecObj

/-- The request-shaping part of `restCallMethod(options)`: it assigns
`options.method`, `options.headers`, `options.data` and
`options.format` on the caller's object in place, then hands that same
reference to `request`.  The returned store records the mutation; the
returned reference is the one passed to the core. -/
def restCallMethodStore (store : Store) (opt : Ref) : Store × Ref :=
  (fun r => if r = opt then restCallShape (store opt) else store r, opt)

/-- The transport handle state an event handler can observe:
`readyState`, HTTP `status` and `statusText`, the raw `response`
payload, `responseText`, the possibly-redirected `responseURL` (the
empty string when unset, as in the DOM API), and `getResponseHeader`. -/
structure XHRState where
  readyState : Nat
  status : Int
  statusText : String
  response : Payload
  responseText : String
  responseURL : String
  getResponseHeader : String → Option String

/-- The `load` event: its `target` transport handle and the `total`
byte count (`none` when unknown, modelling `undefined`). -/
structure LoadEvent where
  target : XHRState
  total : Option Nat

/-- What the second argument of the `RequestError` constructor actually
is at each call site: the transport handle in `onLoad`, but the bare
event object in `onError` — a plain event has no `status` property, so
reading it yields `undefined`. -/
inductive HandleArg where
  | xhr (x : XHRState) : HandleArg
  | errEvent : HandleArg

/-- `xhr.status` read off the constructor's second argument: a number
for a real handle, `undefined` (`none`) for the event object. -/
def argStatus : HandleArg → Option Int
  | .xhr x => some x.status
  | .errEvent => none

/-- The `RequestError` failure value: `name`, originating `url`, the
object passed as the handle, the `code` read from it (absent when the
object has no status), the optional structured `reason`, and the
formatted human message. -/
structure RequestError where
  name : String
  url : String
  handle : HandleArg
  code : Option Int
  reason : Option String
  message : String

/-- The `RequestError` constructor: stores the url and handle, reads
`code` from the handle argument's `status` property, and formats
`request: <message> (<url>)`. -/
def mkRequestError (url : String) (h : HandleArg) (msg : String)
    (reason : Option String) : RequestError :=
  { name := "RequestError"
    url := url
    handle := h
    code := argStatus h
    reason := reason
    message := "request: " ++ msg ++ " (" ++ url ++ ")" }

/-- JS object property assignment `m[k] = v` on a string-keyed object
modelled as an insertion-ordered association list: an existing key keeps
its position and gets the new value, a new key is appended. -/
def setKey (m : List (String × Option String)) (k : String) (v : Option String) :
    List (String × Option String) :=
  if m.any (fun p => p.1 = k) then
    m.map (fun p => if p.1 = k then (k, v) else p)
  else m ++ [(k, v)]

/-- `getResponseHeadersList(xhr, headersList)`: one
`headers[header] = xhr.getResponseHeader(header)` assignment per
requested name, starting from the empty object. -/
def getResponseHeadersList (xhr : XHRState) (headersList : List String) :
    List (String × Option String) :=
  headersList.foldl (fun m h => setKey m h (xhr.getResponseHeader h)) []

/-- The `responseType` the factory configures on the transport:
`"text"` for `document` format (the raw text is re-parsed locally),
otherwise the requested format, defaulting to `"text"`. -/
def responseTypeFor (format : Option String) : String :=
  if format = some "document" then "text" else format.getD "text"

/-- The metadata record emitted when `withMetadata` is set: the decoded
payload, the byte size, the elapsed duration, the captured headers
(absent when no header-name list was supplied), the final url, and the
handle back-reference. -/
structure OutcomeMeta where
  blob : Payload
  size : Option Nat
  duration : Nat
  headers : Option (List (String × Option String))
  url : String
  xhr : XHRState

/-- The value carried by a successful `onNext`. -/
inductive OutValue where
  | bare (p : Payload) : OutValue
  | meta (m : OutcomeMeta) : OutValue

/-- One observer notification. -/
inductive Notification where
  | onNext (v : OutValue) : Notification
  | onError (e : RequestError) : Notification
  | onCompleted : Notification

/-- The environment collaborators `onLoad` consults: the document
parser, a function of (text, content type). `global.DOMParser`'s
`parseFromString` never sees the server-declared content type. -/
structure Env where
  domParse : String → String → Payload

/-- The options `onLoad` closes over. -/
structure ReqOpts where
  url : String
  format : Option String
  withMetadata : Bool
  responseHeaders : Option (List String)

/-- The raw payload obtained in `onLoad`: for `document` format the
response text parsed as `"text/xml"`, otherwise `xhr.response`. -/
def rawBlob (env : Env) (format : Option String) (x : XHRState) : Payload :=
  if format = some "document" then env.domParse x.responseText "text/xml"
  else x.response

/-- The legacy-engine carve-out: for `json` format a payload that is
still a string is parsed with `toJSONForIE`; everything else passes
through. -/
def jsonStep (format : Option String) (blob : Payload) : Payload :=
  if format = some "json" then
    match blob with
    | .str s => toJSONForIE s
    | b => b
  else blob

/-- The string interpolation of the format into the null-decode
message (`undefined` when no format was supplied, as JS renders it). -/
def fmtShow : Option String → String
  | none => "undefined"
  | some f => f

/-- The diagnostic message of the null-after-decode failure. -/
def nullMsg (format : Option String) : String :=
  "null response with format \"" ++ fmtShow format
    ++ "\" (error while parsing or wrong content-type)"

/-- JS `a || b` on strings (`responseURL || url`): the first operand
unless it is the empty (falsy) string. -/
def jsOrStr (a b : String) : String :=
  if a = "" then b else a

/-- The tail of `onLoad` after the payload is decoded (source lines
127–155): the null-decode check, then either the metadata record or the
bare payload, followed by `onCompleted`. -/
def afterDecode (opts : ReqOpts) (evt : LoadEvent) (duration : Nat)
    (blob : Payload) : List Notification :=
  match blob with
  | .null => [.onError (mkRequestError opts.url (.xhr evt.target) (nullMsg opts.format) none)]
  | b =>
    if opts.withMetadata then
      [.onNext (.meta
        { blob := b
          size := evt.total
          duration := duration
          headers := opts.responseHeaders.map (getResponseHeadersList evt.target)
          url := jsOrStr evt.target.responseURL opts.url
          xhr := evt.target }),
       .onCompleted]
    else [.onNext (.bare b), .onCompleted]

/-- The `load` handler: a non-2xx status emits one `RequestError` built
from the handle with the status text as its message; otherwise the
payload is decoded (document re-parse, then the json string carve-out)
and handed to `afterDecode`. -/
def onLoad (env : Env) (opts : ReqOpts) (evt : LoadEvent) (duration : Nat) :
    List Notification :=
  let x := evt.target
  if x.status < 200 ∨ 300 ≤ x.status then
    [.onError (mkRequestError opts.url (.xhr x) x.statusText none)]
  else
    afterDecode opts evt duration (jsonStep opts.format (rawBlob env opts.format x))

/-- The `error` handler: one `RequestError` built from the event object
with the generic `error event` message. -/
def onErrorHandler (url : String) : List Notification :=
  [.onError (mkRequestError url .errEvent "error event" none)]

/-- The observable side effects of the teardown closure returned to the
subscription. -/
structure TeardownEffects where
  removedLoad : Bool
  removedError : Bool
  aborted : Bool
  xhrCleared : Bool

/-- The teardown closure: when `0 < readyState < 4` it detaches both
listeners and aborts the handle; in every case it clears the local
`xhr` reference. -/
def teardown (readyState : Nat) : TeardownEffects :=
  if 0 < readyState ∧ readyState < 4 then
    { removedLoad := true, removedError := true, aborted := true, xhrCleared := true }
  else
    { removedLoad := false, removedError := false, aborted := false, xhrCleared := true }

/-! Concrete fixtures used to evaluate the theorems on closed inputs. -/

/-- An environment whose document parser rejects everything. -/
def envTriv : Env := { domParse := fun _ _ => Payload.null }

/-- A completed transport handle that reported 404. -/
def xhr404 : XHRState :=
  { readyState := 4, status := 404, statusText := "Not Found", response := .null
    responseText := "", responseURL := "", getResponseHeader := fun _ => none }

/-- A completed 200 handle whose json-format response is still the
malformed string payload. -/
def xhrJsonBad : XHRState :=
  { readyState := 4, status := 200, statusText := "OK", response := .str "not json"
    responseText := "", responseURL := "", getResponseHeader := fun _ => none }

/-- A completed 200 handle reporting one response header. -/
def xhrHdr : XHRState :=
  { readyState := 4, status := 200, statusText := "OK", response := .str "body"
    responseText := "", responseURL := ""
    getResponseHeader := fun h => if h = "X-Total" then some "42" else none }

/-- Options with no format and no metadata. -/
def optsPlain : ReqOpts :=
  { url := "http://u", format := none, withMetadata := false, responseHeaders := none }

/-- Options requesting json format. -/
def optsJson : ReqOpts :=
  { url := "http://u", format := some "json", withMetadata := false, responseHeaders := none }

/-- Options requesting document format. -/
def optsDoc : ReqOpts :=
  { url := "http://u", format := some "document", withMetadata := false, responseHeaders := none }

/-- Options requesting metadata and capture of one header. -/
def optsMeta : ReqOpts :=
  { url := "http://u", format := none, withMetadata := true
    responseHeaders := some ["X-Total"] }

/-- A parsed envelope whose `Status` is `-3`. -/
def envelopeNeg : Node :=
  .elem "#document"
    [.elem "RestCallResult" [.elem "Status" [.text "-3"], .elem "Output" [.text "payload"]]]

/-- A parsed envelope whose `Status` is `0`. -/
def envelopeZero : Node :=
  .elem "#document"
    [.elem "RestCallResult" [.elem "Status" [.text "0"], .elem "Output" [.text "payload"]]]

/-- A parsed document with no `RestCallResult` element at all. -/
def envelopeEmpty : Node := .elem "#document" [.elem "Unrelated" []]

/-- A one-object heap holding an untouched caller spec. -/
def c3Store : Store :=
  fun _ =>
    { url := "http://s", method := none, data := .obj [("a", .str "v")]
      headers := none, format := some "rest-call-method", ScriptInfo := none }

/-! Helper lemmas. -/

/-- A character that is none of `&`, `<`, `>` is left alone by the
entity replacement. -/
theorem flatMap_escapeChar_id (l : List Char)
    (h : ∀ c ∈ l, c ≠ '&' ∧ c ≠ '<' ∧ c ≠ '>') :
    l.flatMap (fun c => (escapeChar c).data) = l := by
  induction l with
  | nil => rfl
  | cons c t ih =>
    have hc := h c (by simp)
    have ht : ∀ d ∈ t, d ≠ '&' ∧ d ≠ '<' ∧ d ≠ '>' := fun d hd => h d (by simp [hd])
    have hcc : escapeChar c = String.mk [c] := by
      simp [escapeChar, hc.1, hc.2.1, hc.2.2]
    simp [hcc, ih ht]

/-- `escapeXml` is the identity on strings free of `&`, `<`, `>`. -/
theorem escapeXml_of_clean (s : String)
    (h : ∀ c ∈ s.data, c ≠ '&' ∧ c ≠ '<' ∧ c ≠ '>') : escapeXml s = s := by
  unfold escapeXml
  rw [flatMap_escapeChar_id s.data h]

/-- The element run over concatenated field lists is the concatenation
of the runs: one element per key, in enumeration order. -/
theorem xmlFields_append (l₁ l₂ : List (String × JValue)) :
    xmlFields (l₁ ++ l₂) = xmlFields l₁ ++ xmlFields l₂ := by
  induction l₁ with
  | nil =>
    show xmlFields l₂ = "" ++ xmlFields l₂
    cases h : xmlFields l₂
    rfl
  | cons p t ih =>
    obtain ⟨k, v⟩ := p
    show xmlFields ((k, v) :: (t ++ l₂)) = xmlFields ((k, v) :: t) ++ xmlFields l₂
    simp only [xmlFields, ih, String.append_assoc]

/-- `setKey` preserves "every value is the header reported for its
key". -/
theorem setKey_snd_inv (g : String → Option String)
    (m : List (String × Option String)) (h : String)
    (hm : ∀ p ∈ m, p.2 = g p.1) :
    ∀ p ∈ setKey m h (g h), p.2 = g p.1 := by
  intro p hp
  unfold setKey at hp
  by_cases hx : m.any (fun q => q.1 = h)
  · rw [if_pos hx] at hp
    obtain ⟨q, hq, rfl⟩ := List.mem_map.1 hp
    by_cases hqh : q.1 = h
    · simp [hqh]
    · simp only [if_neg hqh]
      exact hm q hq
  · rw [if_neg hx] at hp
    rcases List.mem_append.1 hp with h1 | h1
    · exact hm p h1
    · simp only [List.mem_singleton] at h1
      subst h1
      rfl

/-- Every key present after a `setKey` was present before or is the
assigned key. -/
theorem setKey_fst_sub (m : List (String × Option String)) (h : String)
    (v : Option String) :
    ∀ p ∈ setKey m h v, p.1 ∈ m.map Prod.fst ∨ p.1 = h := by
  intro p hp
  unfold setKey at hp
  by_cases hx : m.any (fun q => q.1 = h)
  · rw [if_pos hx] at hp
    obtain ⟨q, hq, rfl⟩ := List.mem_map.1 hp
    by_cases hqh : q.1 = h
    · right
      simp [hqh]
    · left
      simp only [if_neg hqh]
      exact List.mem_map.2 ⟨q, hq, rfl⟩
  · rw [if_neg hx] at hp
    rcases List.mem_append.1 hp with h1 | h1
    · exact Or.inl (List.mem_map.2 ⟨p, h1, rfl⟩)
    · simp only [List.mem_singleton] at h1
      subst h1
      exact Or.inr rfl

/-- The entry `(k, g k)` survives a `setKey` of any key with its own
reported value. -/
theorem setKey_keeps (g : String → Option String)
    (m : List (String × Option String)) (h k : String)
    (hk : (k, g k) ∈ m) : (k, g k) ∈ setKey m h (g h) := by
  unfold setKey
  by_cases hx : m.any (fun q => q.1 = h)
  · rw [if_pos hx]
    refine List.mem_map.2 ⟨(k, g k), hk, ?_⟩
    by_cases hkh : k = h
    · subst hkh
      simp
    · simp [hkh]
  · rw [if_neg hx]
    exact List.mem_append.2 (Or.inl hk)

/-- `setKey m h v` contains `(h, v)`. -/
theorem setKey_adds (m : List (String × Option String)) (h : String)
    (v : Option String) : (h, v) ∈ setKey m h v := by
  unfold setKey
  by_cases hx : m.any (fun q => q.1 = h)
  · rw [if_pos hx]
    obtain ⟨q, hq, hqh⟩ := List.any_eq_true.1 hx
    refine List.mem_map.2 ⟨q, hq, ?_⟩
    rw [if_pos (by exact of_decide_eq_true hqh)]
  · rw [if_neg hx]
    exact List.mem_append.2 (Or.inr (by simp))

/-- Invariant of the header-capture fold: every produced entry maps a
requested (or pre-existing) key to its reported value, every requested
key ends up present with its reported value, and already-correct
entries survive. -/
theorem hdrFold_inv (g : String → Option String) :
    ∀ (l : List String) (acc : List (String × Option String)),
      (∀ p ∈ acc, p.2 = g p.1) →
      (∀ p ∈ List.foldl (fun m h => setKey m h (g h)) acc l,
          p.2 = g p.1 ∧ (p.1 ∈ acc.map Prod.fst ∨ p.1 ∈ l))
      ∧ (∀ k ∈ l, (k, g k) ∈ List.foldl (fun m h => setKey m h (g h)) acc l)
      ∧ (∀ k, (k, g k) ∈ acc →
          (k, g k) ∈ List.foldl (fun m h => setKey m h (g h)) acc l) := by
  intro l
  induction l with
  | nil =>
    intro acc hm
    refine ⟨fun p hp => ⟨hm p hp, Or.inl (List.mem_map.2 ⟨p, hp, rfl⟩)⟩, ?_, fun k hk => hk⟩
    intro k hk
    cases hk
  | cons h t ih =>
    intro acc hm
    have hm2 : ∀ p ∈ setKey acc h (g h), p.2 = g p.1 := setKey_snd_inv g acc h hm
    obtain ⟨ih1, ih2, ih3⟩ := ih (setKey acc h (g h)) hm2
    refine ⟨?_, ?_, ?_⟩
    · intro p hp
      obtain ⟨hsnd, hfst⟩ := ih1 p hp
      refine ⟨hsnd, ?_⟩
      rcases hfst with hin | hin
      · obtain ⟨q, hq, hq2⟩ := List.mem_map.1 hin
        rcases setKey_fst_sub acc h (g h) q hq with h2 | h2
        · exact Or.inl (hq2 ▸ h2)
        · exact Or.inr (by simp [← hq2, h2])
      · exact Or.inr (by simp [hin])
    · intro k hk
      rcases List.mem_cons.1 hk with h2 | h2
      · subst h2
        exact ih3 k (setKey_adds acc k (g k))
      · exact ih2 k h2
    · intro k hk
      exact ih3 k (setKey_keeps g acc h k hk)

/-! Theorems. -/

/-- C1: for every request, whatever the format, a load event whose
status is outside [200, 300) makes the producer emit exactly one
`onError` carrying a `RequestError` whose `code` equals the response
status and whose human message is built from the response's status
text, and no `onNext` is delivered. -/
theorem c1_non2xx_single_error (env : Env) (opts : ReqOpts) (evt : LoadEvent)
    (d : Nat) (h : evt.target.status < 200 ∨ 300 ≤ evt.target.status) :
    onLoad env opts evt d
      = [.onError (mkRequestError opts.url (.xhr evt.target) evt.target.statusText none)]
    ∧ (mkRequestError opts.url (.xhr evt.target) evt.target.statusText none).code
        = some evt.target.status
    ∧ (mkRequestError opts.url (.xhr evt.target) evt.target.statusText none).message
        = "request: " ++ evt.target.statusText ++ " (" ++ opts.url ++ ")"
    ∧ ∀ v, Notification.onNext v ∉ onLoad env opts evt d := by
  have hload : onLoad env opts evt d
      = [.onError (mkRequestError opts.url (.xhr evt.target) evt.target.statusText none)] := by
    unfold onLoad
    rw [if_pos h]
  refine ⟨hload, rfl, rfl, ?_⟩
  intro v hv
  rw [hload] at hv
  simp at hv

/-- Witness for C1: a 404 response on a format-free request yields
exactly the one `RequestError` with code 404. -/
theorem c1_witness :
    ((404 : Int) < 200 ∨ (300 : Int) ≤ 404)
    ∧ (onLoad envTriv optsPlain { target := xhr404, total := none } 7
        = [.onError (mkRequestError "http://u" (.xhr xhr404) "Not Found" none)]
      ∧ (mkRequestError "http://u" (.xhr xhr404) "Not Found" none).code = some 404
      ∧ (mkRequestError "http://u" (.xhr xhr404) "Not Found" none).message
          = "request: " ++ "Not Found" ++ " (" ++ "http://u" ++ ")"
      ∧ ∀ v, Notification.onNext v ∉ onLoad envTriv optsPlain { target := xhr404, total := none } 7) :=
  ⟨by norm_num,
   c1_non2xx_single_error envTriv optsPlain { target := xhr404, total := none } 7 (by norm_num [xhr404])⟩

/-- C2: the teardown closure aborts the handle and detaches both
listeners exactly when `0 < readyState < 4`; after a terminal
notification the handle is done (`readyState = 4`) and no abort
happens; the local handle reference is cleared on every path. -/
theorem c2_teardown_effects (rs : Nat) :
    ((teardown rs).aborted = true ↔ 0 < rs ∧ rs < 4)
    ∧ (teardown rs).removedLoad = (teardown rs).aborted
    ∧ (teardown rs).removedError = (teardown rs).aborted
    ∧ (teardown rs).xhrCleared = true
    ∧ (teardown 4).aborted = false
    ∧ (teardown 0).aborted = false := by
  by_cases h : 0 < rs ∧ rs < 4 <;>
    simp [teardown, h]

/-- Witness for C2: an in-flight handle (`readyState = 2`) is aborted
with both listeners detached; a done handle (`readyState = 4`) is not
aborted, and both paths clear the reference. -/
theorem c2_witness :
    (teardown 2).aborted = true ∧ (teardown 4).aborted = false
    ∧ (teardown 2).xhrCleared = true ∧ (teardown 4).xhrCleared = true
    ∧ (teardown 2).removedLoad = (teardown 2).aborted :=
  ⟨(c2_teardown_effects 2).1.mpr (by norm_num),
   (c2_teardown_effects 2).2.2.2.2.1,
   (c2_teardown_effects 2).2.2.2.1,
   (c2_teardown_effects 4).2.2.2.1,
   (c2_teardown_effects 2).2.1⟩

/-- C3 counterexample: the Remote-Call Adapter does not derive a new
spec — after `restCallMethod` runs, the object at the caller's own
reference has changed (its `method` was overwritten in place), and the
very same reference is what is handed to the core. -/
theorem c3_counterexample :
    (restCallMethodStore c3Store 0).1 0 ≠ c3Store 0
    ∧ (restCallMethodStore c3Store 0).2 = 0 := by
  refine ⟨fun h => ?_, rfl⟩
  have hm := congrArg SpecObj.method h
  simp [restCallMethodStore, restCallShape, c3Store] at hm

/-- C3 (amended): `restCallMethod` overrides `method`, `headers`,
`data` and `format` on the caller's spec object in place — forcing POST,
the single `Content-Type: application/xml` header, the XML-serialized
payload inside the `RestCallMethod` envelope, and document format —
leaves the other fields and every other object untouched, and hands
that same object to the core. -/
theorem c3_adapter_overrides (store : Store) (opt : Ref) :
    (restCallMethodStore store opt).2 = opt
    ∧ ((restCallMethodStore store opt).1 opt).method = some "POST"
    ∧ ((restCallMethodStore store opt).1 opt).headers
        = some [("Content-Type", "application/xml")]
    ∧ ((restCallMethodStore store opt).1 opt).format = some "document"
    ∧ ((restCallMethodStore store opt).1 opt).data
        = .str (methodCallXML (objToXML (store opt).data))
    ∧ ((restCallMethodStore store opt).1 opt).url = (store opt).url
    ∧ ∀ r, r ≠ opt → (restCallMethodStore store opt).1 r = store r := by
  refine ⟨rfl, by simp [restCallMethodStore, restCallShape],
    by simp [restCallMethodStore, restCallShape],
    by simp [restCallMethodStore, restCallShape],
    by simp [restCallMethodStore, restCallShape],
    by simp [restCallMethodStore, restCallShape], ?_⟩
  intro r hr
  simp [restCallMethodStore, hr]

/-- Witness for C3's amended theorem: on the concrete one-object heap,
the overridden fields take the forced values and an unrelated reference
is untouched. -/
theorem c3_witness :
    ((restCallMethodStore c3Store 0).1 0).method = some "POST"
    ∧ ((restCallMethodStore c3Store 0).1 0).format = some "document"
    ∧ ((1 : Ref) ≠ 0 ∧ (restCallMethodStore c3Store 0).1 1 = c3Store 1) :=
  ⟨(c3_adapter_overrides c3Store 0).2.1,
   (c3_adapter_overrides c3Store 0).2.2.2.1,
   by norm_num, (c3_adapter_overrides c3Store 0).2.2.2.2.2.2 1 (by norm_num)⟩

/-- C4: for json format, a payload that is still a string is parsed —
`"{\"a\":1}"` decodes to the structure with field `a = 1`, malformed
text decodes to `null` without an escaping exception — and the `null`
is then turned by the generic null-after-decode check into a single
`TransportError` whose message names the json format. -/
theorem c4_json_fallback (env : Env) (opts : ReqOpts) (evt : LoadEvent) (d : Nat)
    (s : String)
    (hfmt : opts.format = some "json")
    (h1 : 200 ≤ evt.target.status) (h2 : evt.target.status < 300)
    (hresp : evt.target.response = .str s)
    (hbad : toJSONForIE s = .null) :
    (onLoad env opts evt d
      = [.onError (mkRequestError opts.url (.xhr evt.target) (nullMsg (some "json")) none)])
    ∧ toJSONForIE "\x7b\"a\":1\x7d" = .json (.obj [("a", .num 1)])
    ∧ toJSONForIE "not json" = .null
    ∧ nullMsg (some "json")
        = "null response with format \"json\" (error while parsing or wrong content-type)" := by
  refine ⟨?_, rfl, rfl, rfl⟩
  unfold onLoad
  rw [if_neg (by omega)]
  simp [rawBlob, jsonStep, afterDecode, hfmt, hresp, hbad]

/-- Witness for C4: a 200 response whose json payload is the string
`"not json"` produces exactly the null-decode `TransportError`. -/
theorem c4_witness :
    (optsJson.format = some "json"
      ∧ (200 : Int) ≤ 200 ∧ (200 : Int) < 300
      ∧ xhrJsonBad.response = .str "not json"
      ∧ toJSONForIE "not json" = .null)
    ∧ onLoad envTriv optsJson { target := xhrJsonBad, total := none } 7
        = [.onError (mkRequestError "http://u" (.xhr xhrJsonBad) (nullMsg (some "json")) none)] :=
  ⟨⟨rfl, by norm_num, by norm_num, rfl, rfl⟩,
   (c4_json_fallback envTriv optsJson { target := xhrJsonBad, total := none } 7 "not json"
     rfl (by norm_num [xhrJsonBad]) (by norm_num [xhrJsonBad]) rfl rfl).1⟩

/-- C5: a document-format request configures the raw-text decode mode
(`responseType "text"`); on a 2xx load the handler re-parses the
response text as XML with the `"text/xml"` content type, whatever the
server declared; and for every format a payload that is `null` after
decoding is emitted as a `TransportError`, never as `onNext`. -/
theorem c5_document_reparse :
    responseTypeFor (some "document") = "text"
    ∧ (∀ (env : Env) (opts : ReqOpts) (evt : LoadEvent) (d : Nat),
        opts.format = some "document" →
        200 ≤ evt.target.status → evt.target.status < 300 →
        onLoad env opts evt d
          = afterDecode opts evt d (env.domParse evt.target.responseText "text/xml"))
    ∧ (∀ (opts : ReqOpts) (evt : LoadEvent) (d : Nat),
        afterDecode opts evt d Payload.null
          = [.onError (mkRequestError opts.url (.xhr evt.target) (nullMsg opts.format) none)]) := by
  refine ⟨rfl, ?_, fun _ _ _ => rfl⟩
  intro env opts evt d hfmt h1 h2
  unfold onLoad
  rw [if_neg (by omega)]
  simp [rawBlob, jsonStep, hfmt]

/-- Witness for C5: a 200 document-format response under a parser that
rejects everything goes through the `"text/xml"` re-parse and ends in
the null-decode `TransportError`. -/
theorem c5_witness :
    (optsDoc.format = some "document" ∧ (200 : Int) ≤ 200 ∧ (200 : Int) < 300)
    ∧ onLoad envTriv optsDoc { target := xhrHdr, total := none } 7
        = afterDecode optsDoc { target := xhrHdr, total := none } 7
            (envTriv.domParse xhrHdr.responseText "text/xml")
    ∧ responseTypeFor (some "document") = "text" :=
  ⟨⟨rfl, by norm_num, by norm_num⟩,
   c5_document_reparse.2.1 envTriv optsDoc { target := xhrHdr, total := none } 7
     rfl (by norm_num [xhrHdr]) (by norm_num [xhrHdr]),
   c5_document_reparse.1⟩

/-- C6: for a well-formed envelope (a `RestCallResult` element with an
integer `Status` child), `RestCallResult` raises `RestCallMethodError`
carrying that status and the supplied url exactly when the status is
negative, and otherwise returns the `Output` element together with the
status. -/
theorem c6_envelope_status (doc rcr st : Node) (url : String) (si : Option String)
    (k : Int)
    (h1 : querySelector doc "RestCallResult" = some rcr)
    (h2 : querySelector rcr "Status" = some st)
    (h3 : jsToNumber (textContent st) = some k) :
    (k < 0 →
      RestCallResult doc url si = .raised (mkRestCallMethodError url k si none)
      ∧ (mkRestCallMethodError url k si none).code = k
      ∧ (mkRestCallMethodError url k si none).url = url)
    ∧ (0 ≤ k →
      RestCallResult doc url si = .ok (querySelector rcr "Output") (some k)) := by
  have hred : RestCallResult doc url si
      = if k < 0 then .raised (mkRestCallMethodError url k si none)
        else .ok (querySelector rcr "Output") (some k) := by
    simp [RestCallResult, h1, h2, h3]
  constructor
  · intro hk
    rw [hred, if_pos hk]
    exact ⟨rfl, rfl, rfl⟩
  · intro hk
    rw [hred, if_neg (by omega)]

/-- Witness for C6: `Status = -3` raises with code `-3` and the
supplied url; `Status = 0` returns the `Output` element with status 0
(instantiating the theorem at both concrete envelopes). -/
theorem c6_witness :
    (RestCallResult envelopeNeg "http://u" none
        = .raised (mkRestCallMethodError "http://u" (-3) none none)
      ∧ (mkRestCallMethodError "http://u" (-3) none none).code = -3
      ∧ (mkRestCallMethodError "http://u" (-3) none none).url = "http://u")
    ∧ RestCallResult envelopeZero "http://u" none
        = .ok (some (.elem "Output" [.text "payload"])) (some 0) :=
  ⟨(c6_envelope_status envelopeNeg
      (.elem "RestCallResult" [.elem "Status" [.text "-3"], .elem "Output" [.text "payload"]])
      (.elem "Status" [.text "-3"]) "http://u" none (-3) rfl rfl rfl).1 (by norm_num),
   (c6_envelope_status envelopeZero
      (.elem "RestCallResult" [.elem "Status" [.text "0"], .elem "Output" [.text "payload"]])
      (.elem "Status" [.text "0"]) "http://u" none 0 rfl rfl rfl).2 (by norm_num)⟩

/-- C10: when the envelope lacks the `RestCallResult` element, or that
element lacks a `Status` child, `RestCallResult` fails with the raw
null-dereference, not with a `RestCallMethodError` — its
raises-iff-negative contract only holds for well-formed envelopes. -/
theorem c10_malformed_envelope (doc : Node) (url : String) (si : Option String) :
    (querySelector doc "RestCallResult" = none →
      RestCallResult doc url si = .nullDeref)
    ∧ (∀ rcr, querySelector doc "RestCallResult" = some rcr →
        querySelector rcr "Status" = none →
        RestCallResult doc url si = .nullDeref)
    ∧ ∀ e, RestCallOutcome.nullDeref ≠ RestCallOutcome.raised e := by
  refine ⟨?_, ?_, fun e h => by cases h⟩
  · intro h
    unfold RestCallResult
    rw [h]
  · intro rcr h1 h2
    simp [RestCallResult, h1, h2]

/-- Witness for C10: a document with no `RestCallResult` element ends
in the raw null-dereference. -/
theorem c10_witness :
    querySelector envelopeEmpty "RestCallResult" = none
    ∧ RestCallResult envelopeEmpty "http://u" none = .nullDeref :=
  ⟨rfl, (c10_malformed_envelope envelopeEmpty "http://u" none).1 rfl⟩

/-- C7: `objToXML` renders one XML element per key in enumeration
order (splitting the field list anywhere splits the output), recurses
into object-valued entries, and escapes exactly `&`, `<`, `>` in leaf
text — as on the two concrete examples. -/
theorem c7_objToXML_rendering :
    objToXML (.obj [("a", .str "<x>")]) = "<a>&lt;x&gt;</a>"
    ∧ objToXML (.obj [("a", .obj [("b", .str "v")])]) = "<a><b>v</b></a>"
    ∧ (∀ l₁ l₂, objToXML (.obj (l₁ ++ l₂)) = objToXML (.obj l₁) ++ objToXML (.obj l₂))
    ∧ (∀ (k : String) (v : JValue) rest,
        objToXML (.obj ((k, v) :: rest))
          = "<" ++ k ++ ">" ++ (if isObjType v then objToXML v else escapeXmlVal v)
            ++ "</" ++ k ++ ">" ++ objToXML (.obj rest))
    ∧ (∀ s : String, (∀ c ∈ s.data, c ≠ '&' ∧ c ≠ '<' ∧ c ≠ '>') → escapeXml s = s)
    ∧ escapeXml "&" = "&amp;" ∧ escapeXml "<" = "&lt;" ∧ escapeXml ">" = "&gt;" := by
  refine ⟨rfl, rfl, fun l₁ l₂ => xmlFields_append l₁ l₂, fun k v rest => ?_,
    escapeXml_of_clean, rfl, rfl, rfl⟩
  show xmlFields ((k, v) :: rest) = _
  simp only [xmlFields, objToXML]

/-- Witness for C7: the escape pass leaves a clean string alone. -/
theorem c7_witness :
    (∀ c ∈ ("hello" : String).data, c ≠ '&' ∧ c ≠ '<' ∧ c ≠ '>')
    ∧ escapeXml "hello" = "hello" :=
  ⟨by decide, c7_objToXML_rendering.2.2.2.2.1 "hello" (by decide)⟩

/-- C8 counterexample: the `TransportError` built on the transport's
error event carries no numeric code at all — the handler passes the
event object, whose `status` is `undefined`, where the constructor
expects the transport handle — refuting the claim that every failure,
including this one, carries a numeric status/code attribute. -/
theorem c8_counterexample :
    onErrorHandler "http://u"
      = [.onError (mkRequestError "http://u" .errEvent "error event" none)]
    ∧ (mkRequestError "http://u" .errEvent "error event" none).code = none
    ∧ (mkRequestError "http://u" .errEvent "error event" none).message
        = "request: error event (http://u)" :=
  ⟨rfl, rfl, rfl⟩

/-- C8 (amended): every failure value carries the originating URL and a
human-readable message; the `RequestError`s built from the transport
handle carry a numeric code equal to the handle's status, and
`RestCallMethodError` carries its numeric envelope status, but the
error-event `TransportError`'s code is undefined. -/
theorem c8_failures_carry_context (url msg : String) (x : XHRState)
    (r : Option String) (code : Int) (method m2 : Option String) :
    (mkRequestError url (.xhr x) msg r).url = url
    ∧ (mkRequestError url (.xhr x) msg r).message
        = "request: " ++ msg ++ " (" ++ url ++ ")"
    ∧ (mkRequestError url (.xhr x) msg r).code = some x.status
    ∧ (mkRequestError url .errEvent msg r).url = url
    ∧ (mkRequestError url .errEvent msg r).message
        = "request: " ++ msg ++ " (" ++ url ++ ")"
    ∧ (mkRequestError url .errEvent msg r).code = none
    ∧ (mkRestCallMethodError url code method m2).url = url
    ∧ (mkRestCallMethodError url code method m2).code = code
    ∧ onErrorHandler url = [.onError (mkRequestError url .errEvent "error event" none)] :=
  ⟨rfl, rfl, rfl, rfl, rfl, rfl, rfl, rfl, rfl⟩

/-- C9: the captured header map contains exactly the requested header
names, each mapped to the transport-reported value, and nothing else;
with metadata requested the outcome record's headers field is present
only when a header-name set was supplied; without metadata the bare
payload is emitted, followed by `onCompleted`. -/
theorem c9_metadata_headers (x : XHRState) (l : List String) (opts : ReqOpts)
    (evt : LoadEvent) (d : Nat) (b : Payload) :
    (∀ p ∈ getResponseHeadersList x l, p.1 ∈ l ∧ p.2 = x.getResponseHeader p.1)
    ∧ (∀ k ∈ l, (k, x.getResponseHeader k) ∈ getResponseHeadersList x l)
    ∧ (b ≠ .null → opts.withMetadata = true →
        afterDecode opts evt d b
          = [.onNext (.meta
              { blob := b
                size := evt.total
                duration := d
                headers := opts.responseHeaders.map (getResponseHeadersList evt.target)
                url := jsOrStr evt.target.responseURL opts.url
                xhr := evt.target }),
             .onCompleted])
    ∧ (b ≠ .null → opts.withMetadata = false →
        afterDecode opts evt d b = [.onNext (.bare b), .onCompleted])
    ∧ (opts.responseHeaders = none →
        opts.responseHeaders.map (getResponseHeadersList evt.target) = none) := by
  obtain ⟨inv1, inv2, _⟩ :=
    hdrFold_inv x.getResponseHeader l [] (fun p hp => absurd hp (List.not_mem_nil p))
  refine ⟨?_, inv2, ?_, ?_, fun h => by rw [h]; rfl⟩
  · intro p hp
    obtain ⟨hsnd, hfst⟩ := inv1 p hp
    refine ⟨?_, hsnd⟩
    rcases hfst with hin | hin
    · simp at hin
    · exact hin
  · intro hb hw
    cases b with
    | null => exact absurd rfl hb
    | str s => simp [afterDecode, hw]
    | json v => simp [afterDecode, hw]
    | doc n => simp [afterDecode, hw]
    | raw i => simp [afterDecode, hw]
  · intro hb hw
    cases b with
    | null => exact absurd rfl hb
    | str s => simp [afterDecode, hw]
    | json v => simp [afterDecode, hw]
    | doc n => simp [afterDecode, hw]
    | raw i => simp [afterDecode, hw]

/-- Witness for C9: requesting `["X-Total"]` captures exactly that
header with the transport-reported `"42"`, and the metadata outcome
embeds that capture; without metadata the bare payload is emitted. -/
theorem c9_witness :
    ("X-Total", some "42") ∈ getResponseHeadersList xhrHdr ["X-Total"]
    ∧ afterDecode optsMeta { target := xhrHdr, total := some 4 } 7 (.str "body")
        = [.onNext (.meta
            { blob := .str "body"
              size := some 4
              duration := 7
              headers := some [("X-Total", some "42")]
              url := "http://u"
              xhr := xhrHdr }),
           .onCompleted]
    ∧ afterDecode optsPlain { target := xhrHdr, total := some 4 } 7 (.str "body")
        = [.onNext (.bare (.str "body")), .onCompleted] := by
  obtain ⟨_, h2, h3, h4, _⟩ :=
    c9_metadata_headers xhrHdr ["X-Total"] optsMeta
      { target := xhrHdr, total := some 4 } 7 (.str "body")
  obtain ⟨_, _, _, h4p, _⟩ :=
    c9_metadata_headers xhrHdr ["X-Total"] optsPlain
      { target := xhrHdr, total := some 4 } 7 (.str "body")
  refine ⟨h2 "X-Total" (by simp), ?_, h4p (by simp) rfl⟩
  have := h3 (by simp) rfl
  exact this

end RxRequest
